import Mathlib

/-!
Shallow embedding of the frame-sequencing and scoring state machine of the
ion-test-player repository (src/components/TestPlayer.tsx) together with the
bundle-loading validation of src/App.tsx.  Each definition mirrors one
function of the TypeScript source; machine/JS specifics that the source
relies on (JS `Record` objects, `String.prototype.trim`/`toLowerCase`,
`Array.prototype.sort` stability) are modelled explicitly below.
-/

namespace IonTestPlayer

/-! ### JS string primitives

`String.prototype.trim` (used at TestPlayer.tsx lines 251-253 and 271) and
`String.prototype.toLowerCase` (line 271), restricted to the ASCII range. -/

def trimChars (l : List Char) : List Char :=
  ((l.dropWhile Char.isWhitespace).reverse.dropWhile Char.isWhitespace).reverse

def jsTrim (s : String) : String := ⟨trimChars s.data⟩

def jsLowerChar (c : Char) : Char :=
  if 'A' ≤ c ∧ c ≤ 'Z' then Char.ofNat (c.toNat + 32) else c

def jsToLower (s : String) : String := ⟨s.data.map jsLowerChar⟩

/-! ### JS `Record<string, α>` objects

A JS object literal keyed by strings, in insertion order with unique keys.
`recGet r k` is `r[k]` (`none` models `undefined`); `recSet r k v` is the
spread update `{ ...r, [k]: v }`: it replaces the value at an existing key in
place, otherwise appends the new key at the end. -/

def recGet {α : Type} : List (String × α) → String → Option α
  | [], _ => none
  | (k1, v1) :: rest, k => if k1 = k then some v1 else recGet rest k

def recSet {α : Type} : List (String × α) → String → α → List (String × α)
  | [], k, v => [(k, v)]
  | (k1, v1) :: rest, k, v =>
      if k1 = k then (k, v) :: rest else (k1, v1) :: recSet rest k v

/-! ### Data model (src/types via usage in src/App.tsx and TestPlayer.tsx)

`FrameBox` is the tagged union `HotspotBox | InputBox` discriminated by
`type` (geometry and label fields are presentation-only and omitted; the
state machine only reads `id`, `type`, `order` and `expected`).  A hotspot's
`order` is `some o` exactly when the TS field passes
`typeof b.order === 'number'`. -/

inductive FrameBox
  | hotspot (id : String) (order : Option Int)
  | input (id : String) (expected : String)
  deriving DecidableEq, Repr

def FrameBox.id : FrameBox → String
  | .hotspot i _ => i
  | .input i _ => i

def FrameBox.isHotspot : FrameBox → Bool
  | .hotspot _ _ => true
  | .input _ _ => false

def FrameBox.isInput : FrameBox → Bool
  | .hotspot _ _ => false
  | .input _ _ => true

/-- `typeof b.order === 'number'` combined with the value of `b.order`. -/
def FrameBox.orderNum : FrameBox → Option Int
  | .hotspot _ o => o
  | .input _ _ => none

/-- `FrameData` (App.tsx lines 87-94): one processed frame. -/
structure FrameData where
  id : String
  imageFileName : String
  imageDataUrl : String
  originalWidth : Nat
  originalHeight : Nat
  boxes : List FrameBox
  deriving DecidableEq, Repr

/-- `UserAnswer` (TestPlayer.tsx lines 13-16): per-frame answer record. -/
structure UserAnswer where
  inputs : List (String × String)
  hotspotsClicked : List (String × Bool)
  deriving DecidableEq, Repr

/-- `BackgroundMistake` (TestPlayer.tsx lines 18-21): image-relative click
coordinates; the floating-point values are carried opaquely as integers. -/
structure BackgroundMistake where
  x : Int
  y : Int
  deriving DecidableEq, Repr

/-- `SequenceState` (TestPlayer.tsx lines 23-25). -/
structure SequenceState where
  nextOrder : Int
  deriving DecidableEq, Repr

/-- The mutable view-state cells of the `TestPlayer` component
(TestPlayer.tsx lines 76-90) that the sequencing/scoring logic touches.
Purely visual cells (`justClickedHotspotId`, `copiedLink`, timer and
leaderboard state) are omitted. -/
structure PlayerState where
  currentFrameIdx : Nat
  userAnswers : List (String × UserAnswer)
  showResults : Bool
  frameMistakes : List (String × Bool)
  hotspotMistakeCount : Nat
  backgroundMistakes : List (String × List BackgroundMistake)
  backgroundMistakeCount : Nat
  sequenceState : List (String × SequenceState)
  deriving DecidableEq, Repr

/-- Initial `userAnswers` (TestPlayer.tsx lines 77-82): one empty record per
frame id. -/
def initUserAnswers (frames : List FrameData) : List (String × UserAnswer) :=
  frames.foldl (fun acc f => recSet acc f.id ⟨[], []⟩) []

/-- The component's initial state (TestPlayer.tsx lines 76-90). -/
def initState (frames : List FrameData) : PlayerState :=
  { currentFrameIdx := 0
    userAnswers := initUserAnswers frames
    showResults := false
    frameMistakes := []
    hotspotMistakeCount := 0
    backgroundMistakes := []
    backgroundMistakeCount := 0
    sequenceState := [] }

/-! ### Sequencing engine (TestPlayer.tsx) -/

/-- `(a.order ?? 0)` used by the sort comparator (TestPlayer.tsx line 128). -/
def orderVal : FrameBox → Int
  | .hotspot _ (some o) => o
  | _ => 0

/-- `b.type === BoxType.HOTSPOT && typeof b.order === 'number'`
(TestPlayer.tsx line 127). -/
def hasNumericOrder : FrameBox → Bool
  | .hotspot _ (some _) => true
  | _ => false

/-- Stable insertion step for `sortByOrderVal`. -/
def insertByOrder (a : FrameBox) : List FrameBox → List FrameBox
  | [] => [a]
  | b :: rest =>
      if orderVal b < orderVal a then b :: insertByOrder a rest
      else a :: b :: rest

/-- `Array.prototype.sort` with comparator
`(a, b) => (a.order ?? 0) - (b.order ?? 0)` (TestPlayer.tsx line 128);
JS sort is stable, modelled by a stable insertion sort. -/
def sortByOrderVal : List FrameBox → List FrameBox
  | [] => []
  | a :: rest => insertByOrder a (sortByOrderVal rest)

/-- `orderedHotspots` (TestPlayer.tsx lines 124-133): the frame's hotspots
that carry a numeric `order`, sorted by it. -/
def orderedHotspots (f : FrameData) : List FrameBox :=
  sortByOrderVal (f.boxes.filter hasNumericOrder)

/-- `isSequential` (TestPlayer.tsx line 131): `hotspots.length > 1`. -/
def isSequential (f : FrameData) : Bool :=
  decide (1 < (orderedHotspots f).length)

inductive NavDirection
  | next
  | prev
  deriving DecidableEq, Repr

/-- `navigate` (TestPlayer.tsx lines 143-155). -/
def navigate (frames : List FrameData) (dir : NavDirection)
    (s : PlayerState) : PlayerState :=
  match dir with
  | .next =>
      if s.currentFrameIdx < frames.length - 1 then
        { s with currentFrameIdx := s.currentFrameIdx + 1 }
      else
        { s with showResults := true }
  | .prev =>
      if 0 < s.currentFrameIdx then
        { s with currentFrameIdx := s.currentFrameIdx - 1 }
      else s

/-- `handleMistakeOccurred` (TestPlayer.tsx lines 118-122); the flash
animation it also triggers is visual only. -/
def handleMistakeOccurred (frames : List FrameData)
    (s : PlayerState) : PlayerState :=
  if s.showResults then s else
  match frames[s.currentFrameIdx]? with
  | none => s
  | some f => { s with frameMistakes := recSet s.frameMistakes f.id true }

/-- `handleInputChange` (TestPlayer.tsx lines 157-165) as it is reachable
through the rendered input: the `onChange` wiring fires it only when
`!showResults` (TestFramePlayer.tsx line 149, with `readOnly={showResults}`
at line 152), so the event is a no-op in review mode.  The answer store
holds an entry for every frame id from initialisation (lines 77-82). -/
def handleInputChange (frames : List FrameData) (boxId value : String)
    (s : PlayerState) : PlayerState :=
  if s.showResults then s else
  match frames[s.currentFrameIdx]? with
  | none => s
  | some f =>
      let prev := (recGet s.userAnswers f.id).getD ⟨[], []⟩
      let updated := { prev with inputs := recSet prev.inputs boxId value }
      { s with userAnswers := recSet s.userAnswers f.id updated }

/-- `recordClick` (TestPlayer.tsx lines 174-185): mark the clicked hotspot
in the current frame's `hotspotsClicked` record, defaulting a missing
per-frame record to `{ inputs: {}, hotspotsClicked: {} }`. -/
def recordClick (f : FrameData) (boxId : String)
    (s : PlayerState) : PlayerState :=
  let prev := (recGet s.userAnswers f.id).getD ⟨[], []⟩
  let updated := { prev with hotspotsClicked := recSet prev.hotspotsClicked boxId true }
  { s with userAnswers := recSet s.userAnswers f.id updated }

/-- `handleHotspotInteraction` (TestPlayer.tsx lines 167-224), including the
deferred `navigate('next')` of its 200ms feedback timeout, which in the
single-threaded event model completes the same transition. -/
def handleHotspotInteraction (frames : List FrameData) (boxId : String)
    (s : PlayerState) : PlayerState :=
  if s.showResults then s else
  match frames[s.currentFrameIdx]? with
  | none => s
  | some f =>
    match f.boxes.find? (fun bx => bx.id == boxId) with
    | none => s
    | some box =>
      if !box.isHotspot then s else
      if !isSequential f then
        navigate frames .next (recordClick f boxId s)
      else
        let progress := (recGet s.sequenceState f.id).getD ⟨1⟩
        if box.orderNum.isSome ∧ box.orderNum = some progress.nextOrder then
          let s1 := recordClick f boxId s
          let nextSeq := recSet s1.sequenceState f.id ⟨progress.nextOrder + 1⟩
          let s2 := { s1 with sequenceState := nextSeq }
          if progress.nextOrder = ((orderedHotspots f).length : Int) then
            navigate frames .next s2
          else s2
        else
          handleMistakeOccurred frames
            { s with hotspotMistakeCount := s.hotspotMistakeCount + 1 }

/-- `handleFrameClickMistake` (TestPlayer.tsx lines 226-240), reachable only
when `!showResults` (also guarded at TestFramePlayer.tsx line 52). -/
def handleFrameClickMistake (frames : List FrameData)
    (coords : BackgroundMistake) (s : PlayerState) : PlayerState :=
  if s.showResults then s else
  match frames[s.currentFrameIdx]? with
  | none => s
  | some f =>
    if f.boxes.any FrameBox.isHotspot then
      let recorded := recSet s.backgroundMistakes f.id
        ((recGet s.backgroundMistakes f.id).getD [] ++ [coords])
      handleMistakeOccurred frames
        { s with backgroundMistakeCount := s.backgroundMistakeCount + 1,
                 backgroundMistakes := recorded }
    else s

/-- `handleInputBlur` (TestPlayer.tsx lines 242-259), including the deferred
`navigate('next')` of its 150ms timeout.  `answer && answer.trim() !== ''`
is false for a missing answer and for a whitespace-only one. -/
def handleInputBlur (frames : List FrameData)
    (s : PlayerState) : PlayerState :=
  if s.showResults then s else
  match frames[s.currentFrameIdx]? with
  | none => s
  | some f =>
    let isInputsOnlyFrame :=
      decide (0 < f.boxes.length) && f.boxes.all FrameBox.isInput
    if !isInputsOnlyFrame then s else
    let inputBoxes := f.boxes.filter FrameBox.isInput
    let answers := (recGet s.userAnswers f.id).getD ⟨[], []⟩
    let allInputsFilled := inputBoxes.all (fun b =>
      match recGet answers.inputs b.id with
      | some a => jsTrim a != ""
      | none => false)
    if allInputsFilled then navigate frames .next s else s

/-! ### Scoring engine (TestPlayer.tsx lines 261-287) -/

/-- The body of the scoring loop (TestPlayer.tsx lines 268-279): the points
one box contributes, given the frame's answer record (`frameAnswers` may be
`undefined`, accessed through `?.` and `?? ''` / truthiness). -/
def boxPoint (frameAnswers : Option UserAnswer) : FrameBox → Nat
  | .input id expected =>
      let userAnswer := (frameAnswers.bind (fun fa => recGet fa.inputs id)).getD ""
      if jsToLower (jsTrim userAnswer) = jsToLower (jsTrim expected) then 1 else 0
  | .hotspot id _ =>
      if (frameAnswers.bind (fun fa => recGet fa.hotspotsClicked id)).getD false
      then 1 else 0

/-- The `score`/`totalPossible` memo (TestPlayer.tsx lines 261-287): `(0,0)`
outside review mode, otherwise the double loop accumulating `(s, t)` per
box, then `s -= totalMistakes` and `Math.max(0, s)`. -/
def scoreAndTotal (showResults : Bool) (frames : List FrameData)
    (userAnswers : List (String × UserAnswer))
    (hotspotMistakeCount backgroundMistakeCount : Nat) : Int × Nat :=
  if !showResults then (0, 0) else
  let st : Nat × Nat := frames.foldl
    (fun acc f => f.boxes.foldl
      (fun acc2 b => (acc2.1 + boxPoint (recGet userAnswers f.id) b, acc2.2 + 1))
      acc)
    (0, 0)
  let totalMistakes := hotspotMistakeCount + backgroundMistakeCount
  (max 0 ((st.1 : Int) - (totalMistakes : Int)), st.2)

/-- Specification-side reading of the loop: the number of boxes scored
correct, as a sum over frames of a sum over boxes. -/
def correctBoxCount (frames : List FrameData)
    (userAnswers : List (String × UserAnswer)) : Nat :=
  (frames.map (fun f => (f.boxes.map (boxPoint (recGet userAnswers f.id))).sum)).sum

/-- Specification-side reading of `totalPossible`: the total number of boxes
across all frames. -/
def totalBoxCount (frames : List FrameData) : Nat :=
  (frames.map (fun f => f.boxes.length)).sum

/-! ### The state machine's operations, bundled -/

inductive PlayerOp
  | hotspotClick (boxId : String)
  | backgroundClick (coords : BackgroundMistake)
  | inputChange (boxId value : String)
  | inputBlur
  | nav (dir : NavDirection)

/-- One user event applied to the player state. -/
def step (frames : List FrameData) : PlayerOp → PlayerState → PlayerState
  | .hotspotClick boxId => handleHotspotInteraction frames boxId
  | .backgroundClick coords => handleFrameClickMistake frames coords
  | .inputChange boxId value => handleInputChange frames boxId value
  | .inputBlur => handleInputBlur frames
  | .nav dir => navigate frames dir

/-! ### Bundle loading (src/App.tsx)

`processZipFile` (App.tsx lines 31-106) is parameterised by its external
collaborators: the archive's entry listing (JSZip's `zip.files`, in
object-key insertion order), the JSON parse of the manifest entry, and the
browser's image decoding (`contentOf` and `dims` below).  `crypto.randomUUID`
is modelled by deterministic fresh identifiers. -/

def charsPrefix : List Char → List Char → Bool
  | [], _ => true
  | _ :: _, [] => false
  | a :: as, b :: bs => a == b && charsPrefix as bs

/-- JS `String.prototype.startsWith`. -/
def strStartsWith (s p : String) : Bool := charsPrefix p.data s.data

/-- JS `String.prototype.endsWith`. -/
def strEndsWith (s p : String) : Bool :=
  charsPrefix p.data.reverse s.data.reverse

/-- One raw hotspot descriptor from the manifest (geometry omitted). -/
structure RawHotspot where
  order : Option Int
  deriving DecidableEq, Repr

/-- One raw input descriptor from the manifest (geometry omitted). -/
structure RawInput where
  expected : String
  deriving DecidableEq, Repr

/-- One raw frame descriptor of the JSON manifest (`Frame` in src/types). -/
structure RawFrame where
  image : String
  hotspots : List RawHotspot
  inputs : List RawInput
  deriving DecidableEq, Repr

/-- One entry of the archive: its relative path and whether it is a
directory (JSZip `zip.files[path].dir`). -/
structure ZipEntry where
  path : String
  isDir : Bool
  deriving DecidableEq, Repr

/-- Outcome of `JSON.parse` on the manifest entry followed by the shape of
the value: the parse threw (`parseFailure msg`, caught by the outer
`catch`), the value is not an array (`notArray`), or it is an array of
frame descriptors. -/
inductive ParsedManifest
  | parseFailure (msg : String)
  | notArray
  | array (l : List RawFrame)
  deriving DecidableEq, Repr

/-- The `for (const relativePath in zip.files)` loop with `break` (App.tsx
lines 35-41): the first `.json` entry that is not a directory and not under
`__MACOSX/`. -/
def findManifestEntry (entries : List ZipEntry) : Option ZipEntry :=
  entries.find? (fun e =>
    strEndsWith e.path ".json" && !e.isDir && !(strStartsWith e.path "__MACOSX/"))

/-- The image lookup (App.tsx lines 56-58): the first non-directory entry
whose path ends in `'/' + frame.image` or equals `frame.image`. -/
def findImagePath (entries : List ZipEntry) (image : String) : Option String :=
  (entries.find? (fun e =>
    !e.isDir && (strEndsWith e.path ("/" ++ image) || e.path == image))).map
    (fun e => e.path)

/-- Processing of one frame descriptor (App.tsx lines 55-95): locate the
image, decode its dimensions, and build the ordered box list (hotspots then
inputs, each given a fresh id). -/
def processFrame (entries : List ZipEntry) (dims : String → Option (Nat × Nat))
    (idx : Nat) (fr : RawFrame) : Except String FrameData :=
  match findImagePath entries fr.image with
  | none => .error ("Image file \"" ++ fr.image ++
      "\" specified in the JSON was not found in the ZIP.")
  | some path =>
    match dims path with
    | none => .error ("Could not get dimensions for image: " ++ fr.image)
    | some wh =>
      .ok { id := "frame-" ++ toString idx
            imageFileName := fr.image
            imageDataUrl := "blob:" ++ path
            originalWidth := wh.1
            originalHeight := wh.2
            boxes :=
              fr.hotspots.enum.map (fun p =>
                FrameBox.hotspot ("hotspot-" ++ toString idx ++ "-" ++ toString p.1) p.2.order)
              ++ fr.inputs.enum.map (fun p =>
                FrameBox.input ("input-" ++ toString idx ++ "-" ++ toString p.1) p.2.expected) }

/-- The `Promise.all(parsedFrames.map(...))` (App.tsx lines 54-96): every
frame is processed and the first failure (in array order) rejects the
whole load. -/
def processFrames (entries : List ZipEntry) (dims : String → Option (Nat × Nat)) :
    Nat → List RawFrame → Except String (List FrameData)
  | _, [] => .ok []
  | i, fr :: rest => do
      let f ← processFrame entries dims i fr
      let fs ← processFrames entries dims (i + 1) rest
      .ok (f :: fs)

/-- `processZipFile` (App.tsx lines 31-106) up to its terminal `setFrames` /
`setGameState` calls: either the processed frame list or the thrown error
message. -/
def processZipFile (entries : List ZipEntry)
    (contentOf : String → ParsedManifest)
    (dims : String → Option (Nat × Nat)) : Except String (List FrameData) :=
  match findManifestEntry entries with
  | none => .error "ZIP file must contain a JSON manifest file."
  | some e =>
    match contentOf e.path with
    | .parseFailure msg => .error msg
    | .notArray => .error "JSON file is empty or has an invalid format."
    | .array l =>
      if l.length = 0 then .error "JSON file is empty or has an invalid format."
      else processFrames entries dims 0 l

/-- `GameState` (App.tsx line 9). -/
inductive GameState
  | uploading
  | playing
  | processing
  | errored
  deriving DecidableEq, Repr

/-- The App state cells the loader writes (App.tsx lines 12-14). -/
structure AppState where
  gameState : GameState
  frames : List FrameData
  errorMsg : Option String
  deriving DecidableEq, Repr

/-- The tail of `processZipFile` (App.tsx lines 98-105): install the frames
and enter `playing` on success; on a thrown error record the message and
enter the error state, leaving `frames` untouched. -/
def applyZipResult (s : AppState) : Except String (List FrameData) → AppState
  | .ok fs => { s with frames := fs, gameState := .playing }
  | .error msg => { s with errorMsg := some msg, gameState := .errored }

/-! ### Concrete data used by the witness theorems -/

def seqFrame : FrameData :=
  ⟨"f1", "a.png", "blob:a", 10, 10,
    [.hotspot "h1" (some 1), .hotspot "h2" (some 2), .hotspot "h3" (some 3)]⟩

def plainFrame : FrameData :=
  ⟨"f2", "b.png", "blob:b", 10, 10, [.hotspot "h4" none]⟩

def inputFrame : FrameData :=
  ⟨"g1", "c.png", "blob:c", 10, 10, [.input "q1" "Paris", .input "q2" "X"]⟩

def demoFrames : List FrameData := [seqFrame, plainFrame, inputFrame]

def reviewState : PlayerState :=
  { initState demoFrames with currentFrameIdx := 2, showResults := true }

/-- The auto-advance condition of `handleInputBlur`, read off the claim: the
frame's box list is non-empty and consists only of input boxes, and every
box has a recorded answer whose trimmed value is non-empty (a missing
answer is treated like an empty one, as `answer && answer.trim() !== ''`
is falsy for both). -/
def blurAdvanceCond (s : PlayerState) (f : FrameData) : Prop :=
  0 < f.boxes.length ∧ (∀ b ∈ f.boxes, b.isInput = true) ∧
  ∀ b ∈ f.boxes,
    ((recGet ((recGet s.userAnswers f.id).getD ⟨[], []⟩).inputs b.id).map jsTrim).getD ""
      ≠ ""

instance (s : PlayerState) (f : FrameData) : Decidable (blurAdvanceCond s f) := by
  unfold blurAdvanceCond; infer_instance

/-! ### Record lemmas -/

theorem recGet_recSet_eq {α : Type} (r : List (String × α)) (k : String) (v : α) :
    recGet (recSet r k v) k = some v := by
  induction r with
  | nil => simp [recSet, recGet]
  | cons hd t ih =>
      obtain ⟨k1, v1⟩ := hd
      by_cases hk : k1 = k <;> simp [recSet, recGet, hk, ih]

theorem recGet_recSet_ne {α : Type} (r : List (String × α)) (k k' : String)
    (v : α) (h : k' ≠ k) :
    recGet (recSet r k v) k' = recGet r k' := by
  have hk' : k ≠ k' := fun hkk => h hkk.symm
  induction r with
  | nil => simp [recSet, recGet, hk']
  | cons hd t ih =>
      obtain ⟨k1, v1⟩ := hd
      by_cases hk : k1 = k
      · subst hk
        simp [recSet, recGet, hk']
      · simp [recSet, recGet, hk, ih]

/-! ### Field-preservation lemmas -/

@[simp] theorem navigate_userAnswers (frames : List FrameData)
    (d : NavDirection) (s : PlayerState) :
    (navigate frames d s).userAnswers = s.userAnswers := by
  cases d <;> simp only [navigate] <;> split <;> rfl

@[simp] theorem navigate_hotspotMistakeCount (frames : List FrameData)
    (d : NavDirection) (s : PlayerState) :
    (navigate frames d s).hotspotMistakeCount = s.hotspotMistakeCount := by
  cases d <;> simp only [navigate] <;> split <;> rfl

@[simp] theorem navigate_backgroundMistakeCount (frames : List FrameData)
    (d : NavDirection) (s : PlayerState) :
    (navigate frames d s).backgroundMistakeCount = s.backgroundMistakeCount := by
  cases d <;> simp only [navigate] <;> split <;> rfl

@[simp] theorem navigate_backgroundMistakes (frames : List FrameData)
    (d : NavDirection) (s : PlayerState) :
    (navigate frames d s).backgroundMistakes = s.backgroundMistakes := by
  cases d <;> simp only [navigate] <;> split <;> rfl

@[simp] theorem navigate_sequenceState (frames : List FrameData)
    (d : NavDirection) (s : PlayerState) :
    (navigate frames d s).sequenceState = s.sequenceState := by
  cases d <;> simp only [navigate] <;> split <;> rfl

@[simp] theorem navigate_frameMistakes (frames : List FrameData)
    (d : NavDirection) (s : PlayerState) :
    (navigate frames d s).frameMistakes = s.frameMistakes := by
  cases d <;> simp only [navigate] <;> split <;> rfl

@[simp] theorem navigate_prev_showResults (frames : List FrameData)
    (s : PlayerState) :
    (navigate frames .prev s).showResults = s.showResults := by
  simp only [navigate]; split <;> rfl

@[simp] theorem recordClick_currentFrameIdx (f : FrameData) (boxId : String)
    (s : PlayerState) :
    (recordClick f boxId s).currentFrameIdx = s.currentFrameIdx := rfl

@[simp] theorem recordClick_showResults (f : FrameData) (boxId : String)
    (s : PlayerState) :
    (recordClick f boxId s).showResults = s.showResults := rfl

@[simp] theorem recordClick_hotspotMistakeCount (f : FrameData) (boxId : String)
    (s : PlayerState) :
    (recordClick f boxId s).hotspotMistakeCount = s.hotspotMistakeCount := rfl

@[simp] theorem recordClick_backgroundMistakeCount (f : FrameData) (boxId : String)
    (s : PlayerState) :
    (recordClick f boxId s).backgroundMistakeCount = s.backgroundMistakeCount := rfl

@[simp] theorem recordClick_backgroundMistakes (f : FrameData) (boxId : String)
    (s : PlayerState) :
    (recordClick f boxId s).backgroundMistakes = s.backgroundMistakes := rfl

@[simp] theorem recordClick_sequenceState (f : FrameData) (boxId : String)
    (s : PlayerState) :
    (recordClick f boxId s).sequenceState = s.sequenceState := rfl

theorem recordClick_hit (f : FrameData) (boxId : String) (s : PlayerState) :
    recGet ((recGet (recordClick f boxId s).userAnswers f.id).getD ⟨[], []⟩).hotspotsClicked boxId
      = some true := by
  simp [recordClick, recGet_recSet_eq]

@[simp] theorem hmo_currentFrameIdx (frames : List FrameData) (s : PlayerState) :
    (handleMistakeOccurred frames s).currentFrameIdx = s.currentFrameIdx := by
  unfold handleMistakeOccurred; split; · rfl
  · split <;> rfl

@[simp] theorem hmo_userAnswers (frames : List FrameData) (s : PlayerState) :
    (handleMistakeOccurred frames s).userAnswers = s.userAnswers := by
  unfold handleMistakeOccurred; split; · rfl
  · split <;> rfl

@[simp] theorem hmo_showResults (frames : List FrameData) (s : PlayerState) :
    (handleMistakeOccurred frames s).showResults = s.showResults := by
  unfold handleMistakeOccurred; split; · rfl
  · split <;> rfl

@[simp] theorem hmo_hotspotMistakeCount (frames : List FrameData) (s : PlayerState) :
    (handleMistakeOccurred frames s).hotspotMistakeCount = s.hotspotMistakeCount := by
  unfold handleMistakeOccurred; split; · rfl
  · split <;> rfl

@[simp] theorem hmo_backgroundMistakeCount (frames : List FrameData) (s : PlayerState) :
    (handleMistakeOccurred frames s).backgroundMistakeCount = s.backgroundMistakeCount := by
  unfold handleMistakeOccurred; split; · rfl
  · split <;> rfl

@[simp] theorem hmo_backgroundMistakes (frames : List FrameData) (s : PlayerState) :
    (handleMistakeOccurred frames s).backgroundMistakes = s.backgroundMistakes := by
  unfold handleMistakeOccurred; split; · rfl
  · split <;> rfl

@[simp] theorem hmo_sequenceState (frames : List FrameData) (s : PlayerState) :
    (handleMistakeOccurred frames s).sequenceState = s.sequenceState := by
  unfold handleMistakeOccurred; split; · rfl
  · split <;> rfl

/-! ### Scoring-loop decomposition lemmas -/

theorem boxes_foldl_score (pt : FrameBox → Nat) (boxes : List FrameBox)
    (a b : Nat) :
    boxes.foldl (fun acc2 bx => (acc2.1 + pt bx, acc2.2 + 1)) (a, b) =
      (a + (boxes.map pt).sum, b + boxes.length) := by
  induction boxes generalizing a b with
  | nil => simp
  | cons x xs ih => simp [ih, Prod.ext_iff]; omega

theorem frames_foldl_score (ua : List (String × UserAnswer))
    (frames : List FrameData) (a b : Nat) :
    frames.foldl
      (fun acc f => f.boxes.foldl
        (fun acc2 bx => (acc2.1 + boxPoint (recGet ua f.id) bx, acc2.2 + 1)) acc)
      (a, b) =
      (a + correctBoxCount frames ua, b + totalBoxCount frames) := by
  induction frames generalizing a b with
  | nil => simp [correctBoxCount, totalBoxCount]
  | cons f fs ih =>
      simp only [List.foldl_cons, boxes_foldl_score, ih,
        correctBoxCount, totalBoxCount, List.map_cons, List.sum_cons]
      simp [Prod.ext_iff]; constructor <;> omega

/-! ### Claim theorems -/

/-- Claim C7: advancing strictly below the last index increments the index
by one and leaves `showResults` unchanged; advancing on the last frame sets
`showResults` and keeps the index; retreating decrements a positive index
and does nothing at index 0; retreat never changes `showResults`. -/
theorem c7_navigation (frames : List FrameData) (s : PlayerState) :
    (s.currentFrameIdx < frames.length - 1 →
      navigate frames .next s = { s with currentFrameIdx := s.currentFrameIdx + 1 }) ∧
    (s.currentFrameIdx = frames.length - 1 →
      navigate frames .next s = { s with showResults := true }) ∧
    (0 < s.currentFrameIdx →
      navigate frames .prev s = { s with currentFrameIdx := s.currentFrameIdx - 1 }) ∧
    (s.currentFrameIdx = 0 → navigate frames .prev s = s) ∧
    (navigate frames .prev s).showResults = s.showResults := by
  refine ⟨fun h => ?_, fun h => ?_, fun h => ?_, fun h => ?_,
    navigate_prev_showResults frames s⟩
  · simp [navigate, h]
  · simp [navigate, h]
  · simp [navigate, h]
  · simp [navigate, h]

/-- Witness for C7 at concrete states built over `demoFrames`
(three frames, so the last index is 2). -/
theorem c7_navigation_witness :
    navigate demoFrames .next (initState demoFrames) =
      { initState demoFrames with currentFrameIdx := 1 } ∧
    navigate demoFrames .next reviewState =
      { reviewState with showResults := true } ∧
    navigate demoFrames .prev reviewState =
      { reviewState with currentFrameIdx := 1 } ∧
    navigate demoFrames .prev (initState demoFrames) = initState demoFrames := by
  have t0 := c7_navigation demoFrames (initState demoFrames)
  have t2 := c7_navigation demoFrames reviewState
  exact ⟨t0.1 (by decide), t2.2.1 (by decide), t2.2.2.1 (by decide),
    t0.2.2.2.1 (by decide)⟩

/-- Claim C3: once review mode (`showResults = true`) is entered, the
hotspot-click, background-click, input-change and input-blur events leave
the whole state unchanged, and navigation — which remains permitted —
touches neither the answer store, the mistake counters, the recorded miss
coordinates nor the sequence progress (hence the score, a function of
these, is also unchanged). -/
theorem c3_review_freeze (frames : List FrameData) (s : PlayerState)
    (h : s.showResults = true) :
    (∀ boxId, handleHotspotInteraction frames boxId s = s) ∧
    (∀ coords, handleFrameClickMistake frames coords s = s) ∧
    (∀ boxId value, handleInputChange frames boxId value s = s) ∧
    handleInputBlur frames s = s ∧
    ∀ dir, (navigate frames dir s).userAnswers = s.userAnswers ∧
      (navigate frames dir s).hotspotMistakeCount = s.hotspotMistakeCount ∧
      (navigate frames dir s).backgroundMistakeCount = s.backgroundMistakeCount ∧
      (navigate frames dir s).backgroundMistakes = s.backgroundMistakes ∧
      (navigate frames dir s).sequenceState = s.sequenceState := by
  refine ⟨fun boxId => ?_, fun coords => ?_, fun boxId value => ?_, ?_,
    fun dir => ⟨by simp, by simp, by simp, by simp, by simp⟩⟩
  · simp [handleHotspotInteraction, h]
  · simp [handleFrameClickMistake, h]
  · simp [handleInputChange, h]
  · simp [handleInputBlur, h]

/-- Witness for C3 at the concrete review-mode state `reviewState`. -/
theorem c3_review_freeze_witness :
    handleHotspotInteraction demoFrames "q1" reviewState = reviewState ∧
    handleFrameClickMistake demoFrames ⟨1, 2⟩ reviewState = reviewState ∧
    handleInputChange demoFrames "q1" "Rome" reviewState = reviewState ∧
    handleInputBlur demoFrames reviewState = reviewState ∧
    (navigate demoFrames .prev reviewState).userAnswers = reviewState.userAnswers := by
  have t := c3_review_freeze demoFrames reviewState rfl
  exact ⟨t.1 "q1", t.2.1 ⟨1, 2⟩, t.2.2.1 "q1" "Rome", t.2.2.2.1,
    (t.2.2.2.2 .prev).1⟩

/-- Claim C2: in review mode the computed score is the number of boxes
scored correct minus the two mistake counters, floored at 0 (so never
negative); `totalPossible` is the total number of boxes across all frames.
The last conjunct is the spec's example: 2 correct boxes with 5 mistakes
yield score 0, not -3. -/
theorem c2_final_score (frames : List FrameData)
    (ua : List (String × UserAnswer)) (hm bm : Nat) :
    scoreAndTotal true frames ua hm bm =
      (max 0 ((correctBoxCount frames ua : Int) - ((hm : Int) + (bm : Int))),
        totalBoxCount frames) ∧
    0 ≤ (scoreAndTotal true frames ua hm bm).1 ∧
    scoreAndTotal true [inputFrame]
      [("g1", ⟨[("q1", " paris "), ("q2", "x")], []⟩)] 3 2 = (0, 2) := by
  have key : scoreAndTotal true frames ua hm bm =
      (max 0 ((correctBoxCount frames ua : Int) - ((hm : Int) + (bm : Int))),
        totalBoxCount frames) := by
    simp only [scoreAndTotal, Bool.not_true, Bool.false_eq_true, if_false,
      frames_foldl_score, Nat.zero_add]
    simp [Nat.cast_add]
  refine ⟨key, ?_, by decide⟩
  rw [key]
  exact le_max_left 0 _

/-- Claim C6: an input box scores +1 exactly when the trimmed,
case-insensitive comparison of the recorded user text (a missing answer
being compared as the empty string, second conjunct) equals the expected
text; the spec's example, expected "Paris" against user text " paris ",
scores correct both at the level of one box and of the whole score. -/
theorem c6_input_scoring (fa : Option UserAnswer) (bid expected : String) :
    (boxPoint fa (.input bid expected) = 1 ↔
      jsToLower (jsTrim ((fa.bind fun a => recGet a.inputs bid).getD "")) =
        jsToLower (jsTrim expected)) ∧
    boxPoint none (.input bid expected) =
      (if jsToLower (jsTrim "") = jsToLower (jsTrim expected) then 1 else 0) ∧
    boxPoint (some ⟨[("q1", " paris ")], []⟩) (.input "q1" "Paris") = 1 ∧
    scoreAndTotal true [inputFrame] [("g1", ⟨[("q1", " paris ")], []⟩)] 0 0 =
      (1, 2) := by
  refine ⟨?_, by simp [boxPoint], by decide, by decide⟩
  simp only [boxPoint]
  split <;> simp_all

/-- Claim C4: on a non-sequential frame (zero or one ordered hotspots), a
click on any hotspot of the frame marks it hit and performs exactly one
advance (next index below the last frame, review mode on the last one),
without touching either mistake counter. -/
theorem c4_nonsequential_click (frames : List FrameData) (s : PlayerState)
    (f : FrameData) (boxId : String) (b : FrameBox)
    (hplay : s.showResults = false)
    (hframe : frames[s.currentFrameIdx]? = some f)
    (hseq : isSequential f = false)
    (hfind : f.boxes.find? (fun bx => bx.id == boxId) = some b)
    (hhot : b.isHotspot = true) :
    handleHotspotInteraction frames boxId s =
      navigate frames .next (recordClick f boxId s) ∧
    recGet ((recGet (handleHotspotInteraction frames boxId s).userAnswers f.id).getD
        ⟨[], []⟩).hotspotsClicked boxId = some true ∧
    (handleHotspotInteraction frames boxId s).hotspotMistakeCount =
      s.hotspotMistakeCount ∧
    (handleHotspotInteraction frames boxId s).backgroundMistakeCount =
      s.backgroundMistakeCount ∧
    (s.currentFrameIdx < frames.length - 1 →
      (handleHotspotInteraction frames boxId s).currentFrameIdx = s.currentFrameIdx + 1 ∧
      (handleHotspotInteraction frames boxId s).showResults = false) ∧
    (¬ s.currentFrameIdx < frames.length - 1 →
      (handleHotspotInteraction frames boxId s).currentFrameIdx = s.currentFrameIdx ∧
      (handleHotspotInteraction frames boxId s).showResults = true) := by
  have key : handleHotspotInteraction frames boxId s =
      navigate frames .next (recordClick f boxId s) := by
    simp [handleHotspotInteraction, hplay, hframe, hfind, hhot, hseq]
  refine ⟨key, ?_, ?_, ?_, fun h => ?_, fun h => ?_⟩
  · rw [key, navigate_userAnswers]
    exact recordClick_hit f boxId s
  · rw [key, navigate_hotspotMistakeCount, recordClick_hotspotMistakeCount]
  · rw [key, navigate_backgroundMistakeCount, recordClick_backgroundMistakeCount]
  · rw [key]
    simp [navigate, recordClick, h, hplay]
  · rw [key]
    simp [navigate, recordClick, h, hplay]

/-- Witness for C4: clicking the unordered hotspot "h4" of `plainFrame`
(frame index 1 of `demoFrames`). -/
theorem c4_nonsequential_click_witness :
    recGet ((recGet (handleHotspotInteraction demoFrames "h4"
        { initState demoFrames with currentFrameIdx := 1 }).userAnswers
        "f2").getD ⟨[], []⟩).hotspotsClicked "h4" = some true ∧
    (handleHotspotInteraction demoFrames "h4"
        { initState demoFrames with currentFrameIdx := 1 }).currentFrameIdx = 2 := by
  have t := c4_nonsequential_click demoFrames
    { initState demoFrames with currentFrameIdx := 1 } plainFrame "h4"
    (FrameBox.hotspot "h4" none) rfl (by decide) (by decide) (by decide) rfl
  exact ⟨t.2.1, (t.2.2.2.2.1 (by decide)).1⟩

/-- Claim C5: when not in review mode, a background click on a frame with
at least one hotspot increments the background-mistake counter by one and
appends the click's coordinates to that frame's recorded miss list; on a
frame with zero hotspots it changes nothing at all; in neither case do the
frame index, the answer store, `showResults` or the wrong-hotspot counter
change. -/
theorem c5_background_click (frames : List FrameData) (s : PlayerState)
    (f : FrameData) (coords : BackgroundMistake)
    (hplay : s.showResults = false)
    (hframe : frames[s.currentFrameIdx]? = some f) :
    (f.boxes.any FrameBox.isHotspot = true →
      (handleFrameClickMistake frames coords s).backgroundMistakeCount =
        s.backgroundMistakeCount + 1 ∧
      recGet (handleFrameClickMistake frames coords s).backgroundMistakes f.id =
        some ((recGet s.backgroundMistakes f.id).getD [] ++ [coords])) ∧
    (f.boxes.any FrameBox.isHotspot = false →
      handleFrameClickMistake frames coords s = s) ∧
    (handleFrameClickMistake frames coords s).currentFrameIdx = s.currentFrameIdx ∧
    (handleFrameClickMistake frames coords s).userAnswers = s.userAnswers ∧
    (handleFrameClickMistake frames coords s).showResults = false ∧
    (handleFrameClickMistake frames coords s).hotspotMistakeCount =
      s.hotspotMistakeCount := by
  by_cases hany : f.boxes.any FrameBox.isHotspot = true
  · have key : handleFrameClickMistake frames coords s =
        handleMistakeOccurred frames
          { s with backgroundMistakeCount := s.backgroundMistakeCount + 1,
                   backgroundMistakes := recSet s.backgroundMistakes f.id
                     ((recGet s.backgroundMistakes f.id).getD [] ++ [coords]) } := by
      simp [handleFrameClickMistake, hplay, hframe, hany]
    refine ⟨fun _ => ⟨?_, ?_⟩, fun hno => by simp_all, ?_, ?_, ?_, ?_⟩
    · rw [key, hmo_backgroundMistakeCount]
    · rw [key, hmo_backgroundMistakes]
      exact recGet_recSet_eq _ _ _
    · rw [key, hmo_currentFrameIdx]
    · rw [key, hmo_userAnswers]
    · rw [key, hmo_showResults]
      exact hplay
    · rw [key, hmo_hotspotMistakeCount]
  · have key : handleFrameClickMistake frames coords s = s := by
      simp only [Bool.not_eq_true] at hany
      simp [handleFrameClickMistake, hplay, hframe, hany]
    refine ⟨fun hyes => absurd hyes hany, fun _ => key, ?_, ?_, ?_, ?_⟩ <;>
      rw [key]
    exact hplay

/-- Witness for C5: a background click at the sequential frame of
`demoFrames` (which has hotspots). -/
theorem c5_background_click_witness :
    (handleFrameClickMistake demoFrames ⟨3, 4⟩
      (initState demoFrames)).backgroundMistakeCount = 1 ∧
    recGet (handleFrameClickMistake demoFrames ⟨3, 4⟩
      (initState demoFrames)).backgroundMistakes "f1" = some [⟨3, 4⟩] ∧
    (handleFrameClickMistake demoFrames ⟨3, 4⟩
      (initState demoFrames)).currentFrameIdx = 0 := by
  have t := c5_background_click demoFrames (initState demoFrames) seqFrame
    ⟨3, 4⟩ rfl (by decide)
  exact ⟨(t.1 (by decide)).1, (t.1 (by decide)).2, t.2.2.1⟩

/-- Claim C1: on a sequential frame (two or more ordered hotspots), a
hotspot click is correct exactly when the clicked hotspot's order equals
`nextExpectedOrder` (which defaults to 1 before any correct click).  On a
correct click the hotspot is marked hit and `nextExpectedOrder` becomes
`progress + 1`, the mistake counters are untouched, and a single frame
advance happens exactly when the clicked order equals the count of ordered
hotspots.  On any other hotspot click the answer store and sequence
progress are unchanged, the wrong-hotspot counter grows by one, and neither
the index nor `showResults` moves. -/
theorem c1_sequential_click (frames : List FrameData) (s sNew : PlayerState)
    (f : FrameData) (boxId : String) (b : FrameBox) (progress : Int)
    (hplay : s.showResults = false)
    (hframe : frames[s.currentFrameIdx]? = some f)
    (hseq : isSequential f = true)
    (hfind : f.boxes.find? (fun bx => bx.id == boxId) = some b)
    (hhot : b.isHotspot = true)
    (hprog : progress = ((recGet s.sequenceState f.id).getD ⟨1⟩).nextOrder)
    (hnew : sNew = handleHotspotInteraction frames boxId s) :
    (b.orderNum = some progress →
      recGet ((recGet sNew.userAnswers f.id).getD ⟨[], []⟩).hotspotsClicked boxId
        = some true ∧
      recGet sNew.sequenceState f.id = some ⟨progress + 1⟩ ∧
      sNew.hotspotMistakeCount = s.hotspotMistakeCount ∧
      sNew.backgroundMistakeCount = s.backgroundMistakeCount ∧
      (progress = ((orderedHotspots f).length : Int) →
        (s.currentFrameIdx < frames.length - 1 →
          sNew.currentFrameIdx = s.currentFrameIdx + 1 ∧ sNew.showResults = false) ∧
        (¬ s.currentFrameIdx < frames.length - 1 →
          sNew.currentFrameIdx = s.currentFrameIdx ∧ sNew.showResults = true)) ∧
      (progress ≠ ((orderedHotspots f).length : Int) →
        sNew.currentFrameIdx = s.currentFrameIdx ∧ sNew.showResults = false)) ∧
    (b.orderNum ≠ some progress →
      sNew.userAnswers = s.userAnswers ∧
      sNew.sequenceState = s.sequenceState ∧
      sNew.hotspotMistakeCount = s.hotspotMistakeCount + 1 ∧
      sNew.backgroundMistakeCount = s.backgroundMistakeCount ∧
      sNew.currentFrameIdx = s.currentFrameIdx ∧
      sNew.showResults = false) := by
  subst hnew hprog
  constructor
  · intro horder
    have key : handleHotspotInteraction frames boxId s =
        (let s1 := recordClick f boxId s
         let pr : SequenceState := (recGet s.sequenceState f.id).getD ⟨1⟩
         let ns := recSet s1.sequenceState f.id ⟨pr.nextOrder + 1⟩
         let s2 := { s1 with sequenceState := ns }
         if pr.nextOrder = ((orderedHotspots f).length : Int) then
           navigate frames .next s2
         else s2) := by
      simp [handleHotspotInteraction, hplay, hframe, hfind, hhot, hseq, horder]
    by_cases hlast : ((recGet s.sequenceState f.id).getD ⟨1⟩).nextOrder =
        ((orderedHotspots f).length : Int)
    · rw [key]
      simp only [hlast, if_true]
      refine ⟨?_, ?_, by simp, by simp, fun _ => ⟨fun h => ?_, fun h => ?_⟩,
        fun hne => absurd rfl hne⟩
      · rw [navigate_userAnswers]
        exact recordClick_hit f boxId s
      · rw [navigate_sequenceState]
        simp only [recordClick_sequenceState]
        exact recGet_recSet_eq _ _ _
      · simp [navigate, recordClick, h, hplay]
      · simp [navigate, recordClick, h, hplay]
    · rw [key]
      simp only [hlast, if_false]
      refine ⟨?_, ?_, by simp [recordClick], by simp [recordClick],
        fun hl => hl.elim, fun _ => ⟨rfl, hplay⟩⟩
      · exact recordClick_hit f boxId s
      · simp only [recordClick_sequenceState]
        exact recGet_recSet_eq _ _ _
  · intro horder
    have key : handleHotspotInteraction frames boxId s =
        handleMistakeOccurred frames
          { s with hotspotMistakeCount := s.hotspotMistakeCount + 1 } := by
      have hcond : ¬ (b.orderNum.isSome ∧
          b.orderNum = some ((recGet s.sequenceState f.id).getD ⟨1⟩).nextOrder) := by
        rintro ⟨-, hx⟩
        exact horder hx
      simp [handleHotspotInteraction, hplay, hframe, hfind, hhot, hseq, hcond]
    rw [key]
    exact ⟨by rw [hmo_userAnswers], by rw [hmo_sequenceState],
      by rw [hmo_hotspotMistakeCount], by rw [hmo_backgroundMistakeCount],
      by rw [hmo_currentFrameIdx], by rw [hmo_showResults]; exact hplay⟩

/-- Witness for C1: on `seqFrame` (orders 1,2,3) of `demoFrames`, the first
correct click is "h1" (order 1): it is marked hit and `nextExpectedOrder`
becomes 2; clicking "h2" first would be a mistake. -/
theorem c1_sequential_click_witness :
    recGet ((recGet (handleHotspotInteraction demoFrames "h1"
        (initState demoFrames)).userAnswers "f1").getD ⟨[], []⟩).hotspotsClicked "h1"
      = some true ∧
    recGet (handleHotspotInteraction demoFrames "h1"
        (initState demoFrames)).sequenceState "f1" = some ⟨2⟩ ∧
    (handleHotspotInteraction demoFrames "h1"
        (initState demoFrames)).currentFrameIdx = 0 := by
  have t := c1_sequential_click demoFrames (initState demoFrames)
    (handleHotspotInteraction demoFrames "h1" (initState demoFrames))
    seqFrame "h1" (FrameBox.hotspot "h1" (some 1)) 1
    rfl (by decide) (by decide) (by decide) rfl (by decide) rfl
  have hc := t.1 rfl
  exact ⟨hc.1, hc.2.1, (hc.2.2.2.2.2 (by decide)).1⟩

/-! ### Bridging lemmas for `handleInputBlur` -/

theorem inputsOnly_bool_iff (f : FrameData) :
    (decide (0 < f.boxes.length) && f.boxes.all FrameBox.isInput) = true ↔
      (0 < f.boxes.length ∧ ∀ b ∈ f.boxes, b.isInput = true) := by
  simp [List.all_eq_true]

theorem filled_bool_iff (ans : UserAnswer) (f : FrameData)
    (hall : ∀ b ∈ f.boxes, b.isInput = true) :
    ((f.boxes.filter FrameBox.isInput).all fun b =>
        match recGet ans.inputs b.id with
        | some a => jsTrim a != ""
        | none => false) = true ↔
      ∀ b ∈ f.boxes, ((recGet ans.inputs b.id).map jsTrim).getD "" ≠ "" := by
  rw [List.filter_eq_self.mpr hall, List.all_eq_true]
  apply Iff.intro
  · intro h b hb
    have hx := h b hb
    cases hr : recGet ans.inputs b.id with
    | none => rw [hr] at hx; simp at hx
    | some a => rw [hr] at hx; simpa using hx
  · intro h b hb
    have hx := h b hb
    cases hr : recGet ans.inputs b.id with
    | none => rw [hr] at hx; simp at hx
    | some a => rw [hr] at hx; simpa using hx

/-- Claim C10: with the player not in review mode, blurring an input on the
current frame advances exactly one frame when the frame's boxes are
non-empty, all inputs, and every one has a recorded answer with non-empty
trimmed value; otherwise — in particular whenever the frame contains a
hotspot, or some input is missing/empty/whitespace-only — it does
nothing. -/
theorem c10_input_blur (frames : List FrameData) (s : PlayerState)
    (f : FrameData)
    (hplay : s.showResults = false)
    (hframe : frames[s.currentFrameIdx]? = some f) :
    (blurAdvanceCond s f → handleInputBlur frames s = navigate frames .next s) ∧
    (¬ blurAdvanceCond s f → handleInputBlur frames s = s) ∧
    ((∃ b ∈ f.boxes, b.isHotspot = true) → handleInputBlur frames s = s) := by
  have h2 : ¬ blurAdvanceCond s f → handleInputBlur frames s = s := by
    intro hnc
    by_cases hb1 : (decide (0 < f.boxes.length) && f.boxes.all FrameBox.isInput) = true
    · obtain ⟨h0, hall⟩ := (inputsOnly_bool_iff f).mp hb1
      have hb2 : ¬ ((f.boxes.filter FrameBox.isInput).all fun b =>
          match recGet ((recGet s.userAnswers f.id).getD ⟨[], []⟩).inputs b.id with
          | some a => jsTrim a != ""
          | none => false) = true := by
        intro hb2
        exact hnc ⟨h0, hall, (filled_bool_iff _ f hall).mp hb2⟩
      have hb2' := Bool.not_eq_true _ ▸ hb2
      simp only [Bool.not_eq_true] at hb2'
      simp [handleInputBlur, hplay, hframe, hb1, hb2']
    · have hb1' : (decide (0 < f.boxes.length) && f.boxes.all FrameBox.isInput) = false := by
        simpa using hb1
      simp [handleInputBlur, hplay, hframe, hb1']
  refine ⟨?_, h2, ?_⟩
  · rintro ⟨h0, hall, hfill⟩
    have hb1 : (decide (0 < f.boxes.length) && f.boxes.all FrameBox.isInput) = true :=
      (inputsOnly_bool_iff f).mpr ⟨h0, hall⟩
    have hb2 : ((f.boxes.filter FrameBox.isInput).all fun b =>
        match recGet ((recGet s.userAnswers f.id).getD ⟨[], []⟩).inputs b.id with
        | some a => jsTrim a != ""
        | none => false) = true :=
      (filled_bool_iff _ f hall).mpr hfill
    simp [handleInputBlur, hplay, hframe, hb1, hb2]
  · rintro ⟨b, hb, hhot⟩
    apply h2
    rintro ⟨-, hall, -⟩
    have hx := hall b hb
    cases b <;> simp [FrameBox.isInput, FrameBox.isHotspot] at hx hhot

/-- Witness for C10: on the inputs-only frame of `demoFrames` (index 2,
boxes "q1"/"q2"), blur advances once both answers are filled, and does not
advance from the initial (unfilled) state. -/
theorem c10_input_blur_witness :
    handleInputBlur demoFrames
        (handleInputChange demoFrames "q2" "x"
          (handleInputChange demoFrames "q1" " paris "
            { initState demoFrames with currentFrameIdx := 2 })) =
      navigate demoFrames .next
        (handleInputChange demoFrames "q2" "x"
          (handleInputChange demoFrames "q1" " paris "
            { initState demoFrames with currentFrameIdx := 2 })) ∧
    handleInputBlur demoFrames
        { initState demoFrames with currentFrameIdx := 2 } =
      { initState demoFrames with currentFrameIdx := 2 } := by
  constructor
  · exact (c10_input_blur demoFrames
      (handleInputChange demoFrames "q2" "x"
        (handleInputChange demoFrames "q1" " paris "
          { initState demoFrames with currentFrameIdx := 2 }))
      inputFrame rfl (by decide)).1 (by decide)
  · exact (c10_input_blur demoFrames
      { initState demoFrames with currentFrameIdx := 2 }
      inputFrame rfl (by decide)).2.1 (by decide)

/-! ### Mistake-effect lemmas, one per event handler -/

theorem hotspotClick_mistake_effect (frames : List FrameData) (boxId : String)
    (s : PlayerState) :
    ((handleHotspotInteraction frames boxId s).hotspotMistakeCount = s.hotspotMistakeCount ∨
     (handleHotspotInteraction frames boxId s).hotspotMistakeCount = s.hotspotMistakeCount + 1) ∧
    (handleHotspotInteraction frames boxId s).backgroundMistakeCount = s.backgroundMistakeCount ∧
    (handleHotspotInteraction frames boxId s).backgroundMistakes = s.backgroundMistakes := by
  unfold handleHotspotInteraction
  repeat' split
  all_goals try simp only [recordClick]
  all_goals repeat' split
  all_goals simp

theorem backgroundClick_mistake_effect (frames : List FrameData)
    (coords : BackgroundMistake) (s : PlayerState) :
    (handleFrameClickMistake frames coords s).hotspotMistakeCount = s.hotspotMistakeCount ∧
    s.backgroundMistakeCount ≤ (handleFrameClickMistake frames coords s).backgroundMistakeCount ∧
    ∀ fid, ∃ t,
      (recGet (handleFrameClickMistake frames coords s).backgroundMistakes fid).getD [] =
        (recGet s.backgroundMistakes fid).getD [] ++ t := by
  unfold handleFrameClickMistake
  split
  · exact ⟨rfl, le_refl _, fun fid => ⟨[], (List.append_nil _).symm⟩⟩
  split
  · exact ⟨rfl, le_refl _, fun fid => ⟨[], (List.append_nil _).symm⟩⟩
  rename_i f hf
  split
  · refine ⟨by simp, by simp, fun fid => ?_⟩
    by_cases hfid : fid = f.id
    · subst hfid
      exact ⟨[coords], by simp [recGet_recSet_eq]⟩
    · exact ⟨[], by simp [recGet_recSet_ne _ _ _ _ hfid]⟩
  · exact ⟨rfl, le_refl _, fun fid => ⟨[], (List.append_nil _).symm⟩⟩

theorem inputChange_mistake_effect (frames : List FrameData)
    (boxId value : String) (s : PlayerState) :
    (handleInputChange frames boxId value s).hotspotMistakeCount = s.hotspotMistakeCount ∧
    (handleInputChange frames boxId value s).backgroundMistakeCount = s.backgroundMistakeCount ∧
    (handleInputChange frames boxId value s).backgroundMistakes = s.backgroundMistakes := by
  unfold handleInputChange
  repeat' split
  all_goals exact ⟨rfl, rfl, rfl⟩

theorem inputBlur_mistake_effect (frames : List FrameData) (s : PlayerState) :
    (handleInputBlur frames s).hotspotMistakeCount = s.hotspotMistakeCount ∧
    (handleInputBlur frames s).backgroundMistakeCount = s.backgroundMistakeCount ∧
    (handleInputBlur frames s).backgroundMistakes = s.backgroundMistakes := by
  unfold handleInputBlur
  repeat' split
  all_goals try simp only []
  all_goals repeat' split
  all_goals simp

/-- Claim C8: no operation of the state machine ever decreases the
wrong-hotspot or the background mistake counter, and each frame's recorded
background-miss list only ever grows (the new value is the old list with a
— possibly empty — suffix appended). -/
theorem c8_monotone_mistakes (frames : List FrameData) (op : PlayerOp)
    (s : PlayerState) :
    s.hotspotMistakeCount ≤ (step frames op s).hotspotMistakeCount ∧
    s.backgroundMistakeCount ≤ (step frames op s).backgroundMistakeCount ∧
    ∀ fid, ∃ t,
      (recGet (step frames op s).backgroundMistakes fid).getD [] =
        (recGet s.backgroundMistakes fid).getD [] ++ t := by
  cases op with
  | hotspotClick boxId =>
      obtain ⟨h1, h2, h3⟩ := hotspotClick_mistake_effect frames boxId s
      refine ⟨?_, le_of_eq h2.symm, fun fid => ⟨[], by simp [step, h3]⟩⟩
      rcases h1 with h | h <;> simp [step, h]
  | backgroundClick coords =>
      obtain ⟨h1, h2, h3⟩ := backgroundClick_mistake_effect frames coords s
      exact ⟨le_of_eq h1.symm, h2, fun fid => by simpa [step] using h3 fid⟩
  | inputChange boxId value =>
      obtain ⟨h1, h2, h3⟩ := inputChange_mistake_effect frames boxId value s
      exact ⟨le_of_eq h1.symm, le_of_eq h2.symm, fun fid => ⟨[], by simp [step, h3]⟩⟩
  | inputBlur =>
      obtain ⟨h1, h2, h3⟩ := inputBlur_mistake_effect frames s
      exact ⟨le_of_eq h1.symm, le_of_eq h2.symm, fun fid => ⟨[], by simp [step, h3]⟩⟩
  | nav dir =>
      exact ⟨by simp [step], by simp [step], fun fid => ⟨[], by simp [step]⟩⟩

/-! ### Load-validation lemmas -/

theorem processFrames_missing_image (entries : List ZipEntry)
    (dims : String → Option (Nat × Nat)) (fr : RawFrame)
    (himg : findImagePath entries fr.image = none) :
    ∀ l : List RawFrame, fr ∈ l → ∀ i,
      ∃ msg, processFrames entries dims i l = .error msg := by
  intro l
  induction l with
  | nil => intro h; cases h
  | cons a rest ih =>
      intro hmem i
      rcases List.mem_cons.mp hmem with rfl | hmem'
      · exact ⟨"Image file \"" ++ fr.image ++
          "\" specified in the JSON was not found in the ZIP.",
          by simp [processFrames, processFrame, himg, Bind.bind, Except.bind]⟩
      · cases hpf : processFrame entries dims i a with
        | error m =>
            exact ⟨m, by simp [processFrames, hpf, Bind.bind, Except.bind]⟩
        | ok fd =>
            obtain ⟨m, hm⟩ := ih hmem' (i + 1)
            exact ⟨m, by simp [processFrames, hpf, hm, Bind.bind, Except.bind]⟩

/-- Claim C9: if the bundle has no manifest entry, or the manifest is not a
non-empty JSON array (parse failure, non-array value, or empty array), or
some frame descriptor references an image not present in the archive, then
loading produces a descriptive error message, the resulting game state is
the error state — never `playing` — and the app's installed frames are left
untouched. -/
theorem c9_load_validation (entries : List ZipEntry)
    (contentOf : String → ParsedManifest) (dims : String → Option (Nat × Nat))
    (app : AppState)
    (h : findManifestEntry entries = none ∨
      (∃ e, findManifestEntry entries = some e ∧
        (contentOf e.path = .notArray ∨ contentOf e.path = .array [] ∨
          ∃ m, contentOf e.path = .parseFailure m)) ∨
      (∃ e l fr, findManifestEntry entries = some e ∧
        contentOf e.path = .array l ∧ fr ∈ l ∧
        findImagePath entries fr.image = none)) :
    ∃ msg, processZipFile entries contentOf dims = .error msg ∧
      (applyZipResult app (processZipFile entries contentOf dims)).gameState =
        .errored ∧
      (applyZipResult app (processZipFile entries contentOf dims)).gameState ≠
        .playing ∧
      (applyZipResult app (processZipFile entries contentOf dims)).frames =
        app.frames := by
  have herr : ∃ msg, processZipFile entries contentOf dims = .error msg := by
    rcases h with hnone | ⟨e, he, hbad⟩ | ⟨e, l, fr, he, harr, hmem, himg⟩
    · exact ⟨"ZIP file must contain a JSON manifest file.",
        by simp [processZipFile, hnone]⟩
    · rcases hbad with hna | hemp | ⟨m, hpf⟩
      · exact ⟨"JSON file is empty or has an invalid format.",
          by simp [processZipFile, he, hna]⟩
      · exact ⟨"JSON file is empty or has an invalid format.",
          by simp [processZipFile, he, hemp]⟩
      · exact ⟨m, by simp [processZipFile, he, hpf]⟩
    · have hne : l.length ≠ 0 := by
        intro h0
        exact List.ne_nil_of_mem hmem (List.length_eq_zero.mp h0)
      obtain ⟨m, hm⟩ := processFrames_missing_image entries dims fr himg l hmem 0
      exact ⟨m, by simp [processZipFile, he, harr, hne, hm]⟩
  obtain ⟨msg, hmsg⟩ := herr
  exact ⟨msg, hmsg, by simp [applyZipResult, hmsg], by simp [applyZipResult, hmsg],
    by simp [applyZipResult, hmsg]⟩

/-- Witness for C9: an archive whose only entry is an image (no JSON
manifest at all) fails the load and leaves an app in the `processing` state
with no frames in the error state, its frames untouched. -/
theorem c9_load_validation_witness :
    ∃ msg, processZipFile [⟨"t/a.png", false⟩] (fun _ => .notArray)
        (fun _ => none) = .error msg ∧
      (applyZipResult ⟨.processing, [], none⟩
        (processZipFile [⟨"t/a.png", false⟩] (fun _ => .notArray)
          (fun _ => none))).gameState = .errored ∧
      (applyZipResult ⟨.processing, [], none⟩
        (processZipFile [⟨"t/a.png", false⟩] (fun _ => .notArray)
          (fun _ => none))).gameState ≠ .playing ∧
      (applyZipResult ⟨.processing, [], none⟩
        (processZipFile [⟨"t/a.png", false⟩] (fun _ => .notArray)
          (fun _ => none))).frames = ([] : List FrameData) :=
  c9_load_validation [⟨"t/a.png", false⟩] (fun _ => .notArray) (fun _ => none)
    ⟨.processing, [], none⟩ (Or.inl (by decide))

end IonTestPlayer
